import Mathlib

/-!
Verification of the pending-transaction lifecycle of the bako-vault-cli
repository, shallowly embedded in Lean.

The embedding follows the TypeScript source:
* `src/types.ts` — data model (`PendingTransaction`, `Signature`, wallet and
  network configuration records) and the transaction service
  (`createTransaction`, `sendTransaction`).
* `src/utils/config.ts` — the single-slot pending-transaction store
  (`hasPendingTransaction`, `loadPendingTransaction`, `savePendingTransaction`,
  `deletePendingTransaction`) and wallet-configuration loading and validation
  (`loadWalletConfig`, `validateWalletConfig`).
* `src/commands/sign.ts` — the `sign` command (signature collection).
* `src/commands/send-tx.ts` (the variant whose `SendTxOptions` only carries
  `network` and which submits the persisted signature list) — the `sendTx`
  command.
* `src/commands/create-tx.ts` — the `createTx` command.

Filesystem state is modeled as an explicit `Option PendingTransaction` slot
threaded through the operations; external collaborators (provider and vault
construction, transaction encoding, signature encoding, network submission,
interactive prompts) are modeled as oracle records whose boolean fields say
whether the corresponding call succeeds, and whose value fields carry the
values those calls return.

A runtime subtlety of the source is modeled explicitly: `sign.ts` pushes
`JSON.stringify` of the signature record — a string — into
`pending.signatures`, although the declared element type is the object type
`Signature`. The constructor `SigEntry.str` denotes such a stringified entry
(it carries the pair the string encodes, since stringification is injective
on these records); `SigEntry.obj` denotes a proper object entry. JavaScript
property access `e.signer` yields `undefined` on a string entry, modeled by
`SigEntry.signerField` returning `none`.
-/

namespace BakoVault

/-- Transaction input parameters (`TransactionInput` in src/types.ts). The
source field `to` is named `toAddr` here because `to` is a Lean keyword. -/
structure TransactionInput where
  toAddr : String
  amount : String
  assetId : Option String
deriving DecidableEq, Repr

/-- One element of `pending.signatures` as it exists at runtime: either a
proper `{ signer, signature }` object (the declared `Signature` type in
src/types.ts) or the JSON string of such a record, which is what
`sign.ts` actually pushes. The `str` constructor carries the encoded pair,
JSON stringification being injective on these records. -/
inductive SigEntry where
  | obj (signer signature : String)
  | str (signer signature : String)
deriving DecidableEq, Repr

/-- JavaScript property access `e.signer`: the signer field of an object
entry, `undefined` (modeled `none`) on a string entry. -/
def SigEntry.signerField : SigEntry → Option String
  | .obj s _ => some s
  | .str _ _ => none

/-- The signer address recorded in an entry, whichever representation it
uses (what a human reading the JSON file sees as the signer). -/
def SigEntry.signerOf : SigEntry → String
  | .obj s _ => s
  | .str s _ => s

/-- Whether the entry is a proper object entry of the declared format. -/
def SigEntry.isObj : SigEntry → Bool
  | .obj _ _ => true
  | .str _ _ => false

/-- The signature payload recorded in an entry. -/
def SigEntry.signatureOf : SigEntry → String
  | .obj _ g => g
  | .str _ g => g

/-- Pending transaction record stored in `.pending-tx.json`
(`PendingTransaction` in src/types.ts). -/
structure PendingTransaction where
  walletName : String
  networkName : String
  hashTxId : String
  encodedTxId : String
  txRequest : String
  transaction : TransactionInput
  createdAt : String
  signatures : List SigEntry
  requiredSignatures : Nat
deriving DecidableEq, Repr

/-- The single-slot pending-transaction store (`.pending-tx.json`): either
empty or holding one record. -/
abbrev Store := Option PendingTransaction

/-- `hasPendingTransaction` (src/utils/config.ts): `existsSync(PENDING_FILE)`. -/
def hasPendingTransaction (st : Store) : Bool := st.isSome

/-- `loadPendingTransaction` (src/utils/config.ts): throws when the file does
not exist, otherwise parses and returns the record. -/
def loadPendingTransaction (st : Store) : Except String PendingTransaction :=
  match st with
  | none => .error "No pending transaction found. Create one first with: bako-vault create-tx"
  | some p => .ok p

/-- `savePendingTransaction` (src/utils/config.ts): overwrites the slot. -/
def savePendingTransaction (p : PendingTransaction) (_st : Store) : Store := some p

/-- `deletePendingTransaction` (src/utils/config.ts): unlinks the file when it
exists, does nothing otherwise; never raises. -/
def deletePendingTransaction (st : Store) : Store :=
  if hasPendingTransaction st then none else st

/-- Count of distinct signer addresses recorded in a signature list
(the notion of unique signers over the recorded pairs). -/
def distinctSigners (l : List SigEntry) : Nat :=
  (l.map SigEntry.signerOf).toFinset.card

/-- The unique-signer computation performed by the send command
(src/commands/send-tx.ts): the size of `new Set(signatures.map(s => s.signer))`.
On string entries `s.signer` is `undefined`, so they all collapse to one
set element. -/
def uniqueSignerFieldCount (l : List SigEntry) : Nat :=
  (l.map SigEntry.signerField).toFinset.card

/-! Wallet configuration and its validation (src/utils/config.ts). JSON
fields that may be absent are modeled as `Option`; JavaScript falsiness of a
present value (`0` for numbers, the empty string for strings) is checked
explicitly where the source uses `!value`. -/

/-- Predicate configurable parameters (`PredicateConfigurable` in
src/types.ts), with `Option` for fields a JSON file may omit. -/
structure PredicateConfigurable where
  SIGNATURES_COUNT : Option Int
  SIGNERS : Option (List String)
  HASH_PREDICATE : Option String
deriving DecidableEq, Repr

/-- Wallet configuration (`WalletConfig` in src/types.ts). `config` and
`version` are `Option` because a JSON file may omit them, which the
validator checks. -/
structure WalletConfig where
  name : String
  config : Option PredicateConfigurable
  version : Option String
deriving DecidableEq, Repr

/-- The all-zero B256 address filtered out of the signer list. -/
def zeroAddress : String :=
  "0x0000000000000000000000000000000000000000000000000000000000000000"

/-- `validateWalletConfig` (src/utils/config.ts): the checks in source
order. A JavaScript `!x` guard on a number rejects an absent field and `0`;
on a string it rejects an absent field and the empty string. -/
def validateWalletConfig (c : WalletConfig) : Except String Unit :=
  match c.config with
  | none => .error "Wallet config must have a \"config\" object"
  | some cfg =>
    match cfg.SIGNERS with
    | none => .error "Wallet config must have SIGNERS array"
    | some signers =>
      if signers.length = 0 then .error "Wallet config must have SIGNERS array"
      else
        match cfg.SIGNATURES_COUNT with
        | none => .error "SIGNATURES_COUNT must be at least 1"
        | some n =>
          if n = 0 ∨ n < 1 then .error "SIGNATURES_COUNT must be at least 1"
          else
            match c.version with
            | none => .error "Wallet config must have a \"version\" field"
            | some v =>
              if v = "" then .error "Wallet config must have a \"version\" field"
              else
                let validSigners := signers.filter (fun s => s ≠ zeroAddress)
                if n > (validSigners.length : Int) then
                  .error "SIGNATURES_COUNT cannot be greater than number of valid signers"
                else .ok ()

/-- `loadWalletConfig` (src/utils/config.ts): the wallets directory is
modeled as a map from wallet name to the parsed file content; a missing file
throws, otherwise the name is set from the filename and the record is
validated. -/
def loadWalletConfig (files : String → Option WalletConfig) (name : String) :
    Except String WalletConfig :=
  match files name with
  | none => .error ("Wallet \"" ++ name ++ "\" not found. Create a file at wallets/" ++ name ++ ".json")
  | some c0 =>
    let c := { c0 with name := name }
    match validateWalletConfig c with
    | .error e => .error e
    | .ok _ => .ok c

/-- Boolean view of an `Except` being a success. -/
def exceptIsOk {ε α : Type} : Except ε α → Bool
  | .ok _ => true
  | .error _ => false

/-! The transaction service (services/transaction.ts). -/

/-- `SendTxResult` (services/transaction.ts). -/
structure SendTxResult where
  transactionId : String
  status : String
deriving DecidableEq, Repr

/-- Oracle for the external collaborators used by `sendTransaction`:
whether vault construction, transaction reconstruction, submission and
result awaiting succeed, how a signature entry is encoded into a witness,
and the values the network returns. -/
structure SendExt where
  vaultOk : Bool
  txOk : Bool
  encode : SigEntry → Except String String
  sendOk : Bool
  waitOk : Bool
  txId : String
  resultStatus : Option String

/-- The witness-building loop of `sendTransaction`: each signature is
encoded in order, the first failing encoding aborts the whole call. -/
def encodeWitnesses (enc : SigEntry → Except String String) :
    List SigEntry → Except String (List String)
  | [] => .ok []
  | s :: rest =>
    match enc s with
    | .error e => .error e
    | .ok w =>
      match encodeWitnesses enc rest with
      | .error e => .error e
      | .ok ws => .ok (w :: ws)

/-- `result.status || 'success'` — the status string defaults to
`success` when the awaited result carries no (or an empty) status. -/
def statusOr : Option String → String
  | none => "success"
  | some s => if s = "" then "success" else s

/-- Everything observable about one `sendTransaction` call: its return (or
thrown error), the store afterwards, and the witness list handed to
`vault.send` when that call was reached. -/
structure SendOutcome where
  result : Except String SendTxResult
  store : Store
  submitted : Option (List String)

/-- `sendTransaction` (services/transaction.ts): build the vault, load the
pending record, rebuild the transaction, encode the given signatures into
witnesses, submit, await the result, and only then delete the pending
file. Any failure leaves the store exactly as it was. -/
def sendTransaction (ext : SendExt) (sigs : List SigEntry) (st : Store) : SendOutcome :=
  if ext.vaultOk = false then ⟨.error "createVaultInstance failed", st, none⟩
  else
    match loadPendingTransaction st with
    | .error e => ⟨.error e, st, none⟩
    | .ok _pending =>
      if ext.txOk = false then ⟨.error "vault.transaction failed", st, none⟩
      else
        match encodeWitnesses ext.encode sigs with
        | .error e => ⟨.error e, st, none⟩
        | .ok witnesses =>
          if ext.sendOk = false then ⟨.error "vault.send failed", st, some witnesses⟩
          else if ext.waitOk = false then
            ⟨.error "waitForResult failed", st, some witnesses⟩
          else
            ⟨.ok ⟨ext.txId, statusOr ext.resultStatus⟩,
             deletePendingTransaction st, some witnesses⟩

/-! The send command (src/commands/send-tx.ts, the variant that submits the
persisted signature list). -/

/-- Parsed options of the `send-tx` CLI command. The entry point
(src/index.ts) declares `-n`, `-s` and `-S`, so the parsed options object
carries all three fields; the command body reads only `network`. -/
structure SendTxOptions where
  network : Option String
  signer : Option String
  signature : Option String
deriving DecidableEq, Repr

/-- Oracle for the send command around the service call: the interactive
confirmation, and whether the wallet and network configuration loads inside
the try block succeed. -/
structure SendCmdExt where
  confirm : Bool
  walletOk : Bool
  networkLoadOk : String → Bool
  send : SendExt

/-- Distinguishable outcome of one `sendTx` invocation. `insufficient got
need` is the early return printing that `need` unique signatures are
required but only `got` are present. -/
inductive SendTxCode where
  | noPending
  | insufficient (got need : Nat)
  | cancelled
  | failed (msg : String)
  | sent (r : SendTxResult)
deriving DecidableEq, Repr

/-- Whether a send command outcome is a confirmed successful submission. -/
def SendTxCode.isSent : SendTxCode → Bool
  | .sent _ => true
  | _ => false

/-- Everything observable about one `sendTx` invocation: the outcome, the
store afterwards, the signature list passed to `sendTransaction` when that
call was reached, and the witness list submitted when submission was
reached. -/
structure SendTxOutcome where
  code : SendTxCode
  store : Store
  passed : Option (List SigEntry)
  submitted : Option (List String)

/-- `sendTx` (src/commands/send-tx.ts): refuse when no pending transaction
exists; load it; compute the unique-signer count of the persisted
signatures via `new Set(signatures.map(s => s.signer))`; refuse when below
the required count; ask for confirmation; then load the configurations and
call `sendTransaction` with exactly the persisted signature list, any
thrown error being caught and reported. The options fields `signer` and
`signature` are never read. -/
def sendTx (ext : SendCmdExt) (opts : SendTxOptions) (st : Store) : SendTxOutcome :=
  if hasPendingTransaction st = false then ⟨.noPending, st, none, none⟩
  else
    match st with
    | none => ⟨.noPending, st, none, none⟩
    | some pending =>
      let signatures := pending.signatures
      let uniqueCount := uniqueSignerFieldCount signatures
      if uniqueCount < pending.requiredSignatures then
        ⟨.insufficient uniqueCount pending.requiredSignatures, st, none, none⟩
      else if ext.confirm = false then ⟨.cancelled, st, none, none⟩
      else if ext.walletOk = false then
        ⟨.failed "wallet config load failed", st, none, none⟩
      else if ext.networkLoadOk (opts.network.getD pending.networkName) = false then
        ⟨.failed "network config load failed", st, none, none⟩
      else
        let out := sendTransaction ext.send signatures st
        match out.result with
        | .error e => ⟨.failed e, out.store, some signatures, out.submitted⟩
        | .ok r => ⟨.sent r, out.store, some signatures, out.submitted⟩

/-! The sign command (src/commands/sign.ts). -/

/-- Oracle for one `sign` invocation: whether key construction and message
signing succeed, the derived signer address and produced signature, the
interactive send-now answer in the threshold branch, whether the
configuration loads there succeed, and the oracle for the inner
`sendTransaction` call. -/
structure SignExt where
  keyOk : Bool
  signerAddress : String
  signatureStr : String
  sendNow : Bool
  walletOk : Bool
  networkOk : Bool
  send : SendExt

/-- What the sign command prints about the threshold after producing a
signature: `currentSignatures` is `pending.signatures.length + 1`,
`thresholdReached` whether the threshold branch was taken, `saved` whether
the pending file was rewritten with the new entry. -/
structure SignReport where
  currentSignatures : Nat
  requiredSignatures : Nat
  thresholdReached : Bool
  saved : Bool
deriving DecidableEq, Repr

/-- Everything observable about one `sign` invocation: the store
afterwards, the threshold report when a signature was produced, and the
result of the inner send attempt when one was made. -/
structure SignOutcome where
  store : Store
  report : Option SignReport
  sendResult : Option (Except String SendTxResult)

/-- `sign` (src/commands/sign.ts): refuse when no pending transaction
exists; produce a signature over `hashTxId`; compute `currentSignatures =
pending.signatures.length + 1`. When that reaches the required count the
command offers to send immediately, passing only the fresh signature as an
object entry, and never writes the fresh signature to the pending file.
Below the threshold it appends `JSON.stringify` of the record — a string
entry — to `pending.signatures` and saves, unless that exact string is
already present (`includes` compares the whole stringified pair). -/
def sign (ext : SignExt) (st : Store) : SignOutcome :=
  if hasPendingTransaction st = false then ⟨st, none, none⟩
  else
    match st with
    | none => ⟨st, none, none⟩
    | some pending =>
      if ext.keyOk = false then ⟨st, none, none⟩
      else
        let currentSignatures := pending.signatures.length + 1
        let required := pending.requiredSignatures
        if currentSignatures ≥ required then
          if ext.sendNow then
            if ext.walletOk = false then
              ⟨st, some ⟨currentSignatures, required, true, false⟩,
               some (.error "wallet config load failed")⟩
            else if ext.networkOk = false then
              ⟨st, some ⟨currentSignatures, required, true, false⟩,
               some (.error "network config load failed")⟩
            else
              let out := sendTransaction ext.send
                [SigEntry.obj ext.signerAddress ext.signatureStr] st
              ⟨out.store, some ⟨currentSignatures, required, true, false⟩, some out.result⟩
          else ⟨st, some ⟨currentSignatures, required, true, false⟩, none⟩
        else
          let sigEntry := SigEntry.str ext.signerAddress ext.signatureStr
          if sigEntry ∈ pending.signatures then
            ⟨st, some ⟨currentSignatures, required, false, false⟩, none⟩
          else
            ⟨some { pending with signatures := pending.signatures ++ [sigEntry] },
             some ⟨currentSignatures, required, false, true⟩, none⟩

/-- Folding a sequence of sign invocations over the store (each CLI run is
one `sign` call; only the store persists between runs). -/
def runSigns (calls : List SignExt) (st : Store) : Store :=
  calls.foldl (fun s c => (sign c s).store) st

/-! The create command (src/commands/create-tx.ts) and the create service
(services/transaction.ts). -/

/-- The `SIGNATURES_COUNT` read by the service as
`config.config.SIGNATURES_COUNT` (the command only reaches the service with
a validated configuration, where both options are populated). -/
def WalletConfig.signaturesCount (c : WalletConfig) : Int :=
  match c.config with
  | some cfg => cfg.SIGNATURES_COUNT.getD 0
  | none => 0

/-- `CreateTxResult` (services/transaction.ts). -/
structure CreateTxResult where
  hashTxId : String
  vaultAddress : String
  signersRequired : Int
deriving DecidableEq, Repr

/-- Oracle for the external collaborators used by `createTransaction`:
whether vault construction and `vault.transaction` succeed, the computed
signing hash and vault address, the serialized transaction request, and the
current time. -/
structure CreateExt where
  vaultOk : Bool
  txOk : Bool
  hashTxId : String
  vaultAddress : String
  txJSON : String
  now : String

/-- `createTransaction` (services/transaction.ts): build the vault, build
the transaction to obtain `hashTxId`, then save a fresh pending record with
an empty signature list and the required count taken from the wallet
configuration. -/
def createTransaction (ext : CreateExt) (config : WalletConfig) (networkName : String)
    (input : TransactionInput) (st : Store) : Except String CreateTxResult × Store :=
  if ext.vaultOk = false then (.error "createVaultInstance failed", st)
  else if ext.txOk = false then (.error "vault.transaction failed", st)
  else
    let pending : PendingTransaction :=
      { walletName := config.name
        networkName := networkName
        hashTxId := ext.hashTxId
        encodedTxId := ext.hashTxId
        txRequest := ext.txJSON
        transaction := input
        createdAt := ext.now
        signatures := []
        requiredSignatures := (WalletConfig.signaturesCount config).toNat }
    (.ok ⟨ext.hashTxId, ext.vaultAddress, WalletConfig.signaturesCount config⟩,
     savePendingTransaction pending st)

/-- Parsed options of the `create-tx` CLI command. The source field `to` is
named `toAddr` here; the `-f` option is modeled as `fileData`, where
`some none` means the flag was given but the file does not exist and
`some (some ti)` carries the parsed file content. -/
structure CreateTxOptions where
  wallet : Option String
  network : Option String
  toAddr : Option String
  amount : Option String
  asset : Option String
  fileData : Option (Option TransactionInput)

/-- Oracle for one `createTx` invocation: the interactive replace answer,
whether the network configuration load succeeds, and the service oracle. -/
structure CreateCmdExt where
  replace : Bool
  networkOk : Bool
  svc : CreateExt

/-- Distinguishable outcome of one `createTx` invocation. `keptExisting` is
the refusal path taken when a pending transaction exists and replacement is
declined. -/
inductive CreateCode where
  | keptExisting
  | missingOptions
  | fileNotFound
  | failed (msg : String)
  | created (r : CreateTxResult)
deriving DecidableEq, Repr

/-- Everything observable about one `createTx` invocation. -/
structure CreateOutcome where
  code : CreateCode
  store : Store

/-- The transaction-input selection of `createTx`: a given file wins,
otherwise `to` and `amount` must both be present. -/
def createTxInput (opts : CreateTxOptions) : Except CreateCode TransactionInput :=
  match opts.fileData with
  | some none => .error .fileNotFound
  | some (some ti) => .ok ti
  | none =>
    match opts.toAddr, opts.amount with
    | some t, some a => .ok ⟨t, a, opts.asset⟩
    | _, _ => .error .missingOptions

/-- The part of `createTx` after the existing-proposal gate: option
validation, configuration loading and the service call, thrown errors being
caught with the store left as it stands at that point. -/
def createTxRest (ext : CreateCmdExt) (files : String → Option WalletConfig)
    (opts : CreateTxOptions) (st : Store) : CreateOutcome :=
  match opts.wallet with
  | none => ⟨.missingOptions, st⟩
  | some w =>
    match opts.network with
    | none => ⟨.missingOptions, st⟩
    | some nw =>
      match createTxInput opts with
      | .error c => ⟨c, st⟩
      | .ok input =>
        match loadWalletConfig files w with
        | .error e => ⟨.failed e, st⟩
        | .ok cfg =>
          if ext.networkOk = false then ⟨.failed "network config load failed", st⟩
          else
            let res := createTransaction ext.svc cfg nw input st
            match res.1 with
            | .error e => ⟨.failed e, res.2⟩
            | .ok r => ⟨.created r, res.2⟩

/-- `createTx` (src/commands/create-tx.ts): when a pending transaction
exists, ask whether to replace it; declining keeps the store untouched and
returns; confirming deletes the old record first, before anything else runs
— only then are options validated and the new transaction created. -/
def createTx (ext : CreateCmdExt) (files : String → Option WalletConfig)
    (opts : CreateTxOptions) (st : Store) : CreateOutcome :=
  if hasPendingTransaction st then
    if ext.replace = false then ⟨.keptExisting, st⟩
    else createTxRest ext files opts (deletePendingTransaction st)
  else createTxRest ext files opts st

/-! Spec-side characterization used for the acceptance claim about wallet
configurations. -/

/-- Modelled from the amended claim wording: a wallet configuration is
accepted exactly when the `config` object is present, `SIGNERS` is present
and non-empty, `SIGNATURES_COUNT` is present with value at least `1` and at
most the number of signers left after excluding the all-zero address, and
`version` is present and non-empty. Compared below with
`validateWalletConfig`, the definition taken from the source. -/
def specWalletConfigAccepted (c : WalletConfig) : Bool :=
  match c.config with
  | none => false
  | some cfg =>
    match cfg.SIGNERS, cfg.SIGNATURES_COUNT, c.version with
    | some signers, some n, some v =>
      (!signers.isEmpty) && decide (1 ≤ n)
        && decide (n ≤ ((signers.filter (fun s => s ≠ zeroAddress)).length : Int))
        && (!(v = ""))
    | _, _, _ => false

/-! Concrete sample inputs used by the closed counterexample and witness
theorems below. -/

/-- A fully succeeding submission oracle with a concrete injective witness
encoding. -/
def sendExtOk : SendExt :=
  { vaultOk := true, txOk := true,
    encode := fun e => .ok (e.signerOf ++ ":" ++ e.signatureOf),
    sendOk := true, waitOk := true, txId := "tx-1", resultStatus := none }

/-- A sign-command oracle for signer `A` producing signature `s1`, with the
interactive send declined and all collaborators succeeding. -/
def signExtA1 : SignExt :=
  { keyOk := true, signerAddress := "A", signatureStr := "s1", sendNow := false,
    walletOk := true, networkOk := true, send := sendExtOk }

/-- The same signer `A` producing a different signature `s2`. -/
def signExtA2 : SignExt := { signExtA1 with signatureStr := "s2" }

/-- A distinct signer `B` producing signature `sB`. -/
def signExtB : SignExt := { signExtA1 with signerAddress := "B", signatureStr := "sB" }

/-- A freshly created pending transaction with the given required count:
empty signature list, as `createTransaction` persists it. -/
def freshPending (required : Nat) : PendingTransaction :=
  { walletName := "w", networkName := "n", hashTxId := "h", encodedTxId := "h",
    txRequest := "r", transaction := ⟨"T", "1", none⟩, createdAt := "c",
    signatures := [], requiredSignatures := required }

/-- A pending transaction holding one proper object signature by `A`, two
signatures required. -/
def pendingOneObjOfTwo : PendingTransaction :=
  { freshPending 2 with signatures := [SigEntry.obj "A" "sA"] }

/-- The store the sign command itself produces from a fresh three-required
proposal after distinct signers `A` and `B` sign: two stringified entries. -/
def pendingTwoStrOfThree : PendingTransaction :=
  { freshPending 3 with
    signatures := [SigEntry.str "A" "s1", SigEntry.str "B" "sB"] }

/-- A pending transaction holding one proper object signature by `A`, one
signature required (send-eligible). -/
def pendingOneObjOfOne : PendingTransaction :=
  { freshPending 1 with signatures := [SigEntry.obj "A" "sA"] }

/-- A send-command oracle where every collaborator succeeds and the user
confirms. -/
def sendCmdExtOk : SendCmdExt :=
  { confirm := true, walletOk := true, networkLoadOk := fun _ => true, send := sendExtOk }

/-- Options of a send invocation that supplies `-s` and `-S` values on the
command line. -/
def sendOptsWithCliSig : SendTxOptions :=
  { network := some "n", signer := some "X", signature := some "0xSig" }

/-- A create-service oracle where every collaborator succeeds. -/
def createExtOk : CreateExt :=
  { vaultOk := true, txOk := true, hashTxId := "h2", vaultAddress := "va",
    txJSON := "r2", now := "c2" }

/-- A create-command oracle declining replacement. -/
def createCmdKeep : CreateCmdExt :=
  { replace := false, networkOk := true, svc := createExtOk }

/-- A create-command oracle confirming replacement. -/
def createCmdReplace : CreateCmdExt := { createCmdKeep with replace := true }

/-- A valid stored wallet file with one signer and threshold one. -/
def walletFileOk : WalletConfig :=
  ⟨"", some ⟨some 1, some ["A"], none⟩, some "v1"⟩

/-- A wallets directory holding `walletFileOk` under the name `w`. -/
def walletFiles : String → Option WalletConfig :=
  fun nm => if nm = "w" then some walletFileOk else none

/-- Complete options for a create invocation. -/
def createOptsOk : CreateTxOptions :=
  { wallet := some "w", network := some "n", toAddr := some "T",
    amount := some "1", asset := none, fileData := none }

/-- A wallet configuration whose `version` field is present but empty, with
everything else valid: one non-zero signer and threshold one. -/
def walletEmptyVersion : WalletConfig :=
  ⟨"w", some ⟨some 1, some ["A"], none⟩, some ""⟩

/-- A pending transaction with three required signatures that already holds
the stringified entry of signer `A` with signature `s1`. -/
def pendingReSign : PendingTransaction :=
  { freshPending 3 with signatures := [SigEntry.str "A" "s1"] }

/-- The sign-command oracle of `A`, but confirming the inline send offer. -/
def signExtSendNow : SignExt := { signExtA1 with sendNow := true }

/-- Entry-level distinctness of whatever the store holds: the persisted
signature list contains no two identical entries. -/
def storeEntriesNodup (st : Store) : Prop :=
  ∀ p : PendingTransaction, st = some p → p.signatures.Nodup

/-! Helper lemmas shared by several claim proofs. -/

/-- The store after `sendTransaction` is empty exactly when the call
succeeded, and untouched otherwise. -/
theorem sendTransaction_store_eq (ext : SendExt) (sigs : List SigEntry) (st : Store) :
    (sendTransaction ext sigs st).store
      = if exceptIsOk (sendTransaction ext sigs st).result then none else st := by
  unfold sendTransaction
  cases hv : ext.vaultOk with
  | false => simp [exceptIsOk]
  | true =>
    cases st with
    | none => simp [loadPendingTransaction, exceptIsOk]
    | some p =>
      cases ht : ext.txOk with
      | false => simp [loadPendingTransaction, exceptIsOk]
      | true =>
        cases he : encodeWitnesses ext.encode sigs with
        | error e => simp [loadPendingTransaction, he, exceptIsOk]
        | ok ws =>
          cases hs : ext.sendOk with
          | false => simp [loadPendingTransaction, he, exceptIsOk]
          | true =>
            cases hw : ext.waitOk with
            | false => simp [loadPendingTransaction, he, exceptIsOk]
            | true =>
              simp [loadPendingTransaction, he, exceptIsOk,
                deletePendingTransaction, hasPendingTransaction]

/-- The store after `sendTx` is empty exactly when the outcome is a
confirmed submission, and untouched otherwise. -/
theorem sendTx_store_eq (extc : SendCmdExt) (opts : SendTxOptions) (st : Store) :
    (sendTx extc opts st).store
      = if (sendTx extc opts st).code.isSent then none else st := by
  cases st with
  | none => simp [sendTx, hasPendingTransaction, SendTxCode.isSent]
  | some p =>
    have h := sendTransaction_store_eq extc.send p.signatures (some p)
    simp only [sendTx, hasPendingTransaction, Option.isSome_some]
    repeat' split
    all_goals simp_all [SendTxCode.isSent, exceptIsOk]

/-- C1: during send, the persisted proposal is mutated only after the
external submission collaborator confirms success. Both for the service
call `sendTransaction` and for the whole `sendTx` command invocation, a
failure at any point (vault or transaction reconstruction, witness
encoding, network submission, awaiting the result, and for the command also
configuration loading, the threshold gate and the confirmation prompt)
leaves the store — and hence every collected signature — exactly as it was;
only a confirmed successful submission deletes the proposal. -/
theorem send_mutates_store_only_after_confirmed_success
    (ext : SendExt) (sigs : List SigEntry) (st : Store)
    (extc : SendCmdExt) (opts : SendTxOptions) (st2 : Store) :
    ((sendTransaction ext sigs st).store
        = if exceptIsOk (sendTransaction ext sigs st).result then none else st)
    ∧ ((sendTx extc opts st2).store
        = if (sendTx extc opts st2).code.isSent then none else st2) :=
  ⟨sendTransaction_store_eq ext sigs st, sendTx_store_eq extc opts st2⟩

/-- One sign invocation leaves the store untouched, empties it (after a
successful inline submission), or appends the stringified fresh entry when
that exact entry is not already present. -/
theorem sign_store_shape (ext : SignExt) (p : PendingTransaction) :
    (sign ext (some p)).store = some p
    ∨ (sign ext (some p)).store = none
    ∨ ((SigEntry.str ext.signerAddress ext.signatureStr ∉ p.signatures)
        ∧ (sign ext (some p)).store
            = some { p with signatures :=
                p.signatures ++ [SigEntry.str ext.signerAddress ext.signatureStr] }) := by
  simp only [sign, hasPendingTransaction, Option.isSome_some, Bool.true_eq_false]
  repeat' split
  all_goals first
    | (left; simp; done)
    | (right; right; exact ⟨by assumption, by simp⟩)
    | (have hst := sendTransaction_store_eq ext.send
          [SigEntry.obj ext.signerAddress ext.signatureStr] (some p)
       cases hok : exceptIsOk (sendTransaction ext.send
          [SigEntry.obj ext.signerAddress ext.signatureStr] (some p)).result with
       | true => right; left; simp [hst, hok]
       | false => left; simp [hst, hok])

/-- One sign invocation preserves entry-level distinctness of the store. -/
theorem sign_preserves_entriesNodup (ext : SignExt) (st : Store)
    (h : storeEntriesNodup st) : storeEntriesNodup (sign ext st).store := by
  cases st with
  | none =>
    intro q hq
    simp [sign, hasPendingTransaction] at hq
  | some p =>
    rcases sign_store_shape ext p with h1 | h1 | ⟨hmem, h1⟩
    · intro q hq
      rw [h1] at hq
      obtain rfl := Option.some.inj hq
      exact h _ rfl
    · intro q hq
      rw [h1] at hq
      exact Option.noConfusion hq
    · intro q hq
      rw [h1] at hq
      obtain rfl := Option.some.inj hq
      have hp := h p rfl
      simp only [List.nodup_append, List.nodup_cons, List.not_mem_nil,
        not_false_eq_true, List.nodup_nil, and_true, true_and]
      exact ⟨hp, by simpa using hmem⟩

/-- Any sequence of sign invocations preserves entry-level distinctness. -/
theorem runSigns_preserves_entriesNodup (calls : List SignExt) (st : Store)
    (h : storeEntriesNodup st) : storeEntriesNodup (runSigns calls st) := by
  induction calls generalizing st with
  | nil => simpa [runSigns] using h
  | cons c cs ih =>
    simp only [runSigns, List.foldl_cons]
    have hstep := sign_preserves_entriesNodup c st h
    simpa [runSigns] using ih (sign c st).store hstep

/-- C2 counterexample: starting from a signer-unique store (the fresh
proposal with three required signatures has no signatures at all), two sign
invocations by the same signer `A` with different signature payloads leave
a persisted list with two entries recording the same signer address — the
signer-uniqueness invariant is not preserved, because the dedup check
compares the whole stringified pair, not the signer. -/
theorem sign_signer_uniqueness_not_preserved_cex :
    ((freshPending 3).signatures.map SigEntry.signerOf).Nodup
    ∧ runSigns [signExtA1, signExtA2] (some (freshPending 3))
        = some { freshPending 3 with
            signatures := [SigEntry.str "A" "s1", SigEntry.str "A" "s2"] }
    ∧ ¬ (([SigEntry.str "A" "s1", SigEntry.str "A" "s2"].map SigEntry.signerOf).Nodup) := by
  refine ⟨by simp [freshPending], rfl, by decide⟩

/-- C2 amended: the sign command deduplicates persisted entries by exact
equality of the whole stringified (signer, signature) record, not by signer
address. Arbitrary sign sequences preserve entry-level distinctness;
re-submitting an identical pair below the threshold is a silent no-op; a
second, different signature for an already-present signer below the
threshold is appended as a new entry — the first entry is retained
unchanged and the distinct-signer count does not change. -/
theorem sign_dedups_by_exact_entry :
    (∀ (calls : List SignExt) (st : Store),
        storeEntriesNodup st → storeEntriesNodup (runSigns calls st))
    ∧ (∀ (ext : SignExt) (p : PendingTransaction),
        ext.keyOk = true →
        p.signatures.length + 1 < p.requiredSignatures →
        SigEntry.str ext.signerAddress ext.signatureStr ∈ p.signatures →
        (sign ext (some p)).store = some p)
    ∧ (∀ (ext : SignExt) (p : PendingTransaction),
        ext.keyOk = true →
        p.signatures.length + 1 < p.requiredSignatures →
        SigEntry.str ext.signerAddress ext.signatureStr ∉ p.signatures →
        (sign ext (some p)).store
            = some { p with signatures :=
                p.signatures ++ [SigEntry.str ext.signerAddress ext.signatureStr] }
          ∧ (ext.signerAddress ∈ p.signatures.map SigEntry.signerOf →
              distinctSigners (p.signatures
                  ++ [SigEntry.str ext.signerAddress ext.signatureStr])
                = distinctSigners p.signatures)) := by
  refine ⟨runSigns_preserves_entriesNodup, ?_, ?_⟩
  · intro ext p hkey hlt hmem
    simp [sign, hasPendingTransaction, hkey, Nat.not_le_of_lt hlt, hmem]
  · intro ext p hkey hlt hmem
    constructor
    · simp [sign, hasPendingTransaction, hkey, Nat.not_le_of_lt hlt, hmem]
    · intro hsigner
      unfold distinctSigners
      have hunion : (p.signatures.map SigEntry.signerOf).toFinset
            ∪ {ext.signerAddress}
          = (p.signatures.map SigEntry.signerOf).toFinset :=
        Finset.union_eq_left.mpr
          (Finset.singleton_subset_iff.mpr (List.mem_toFinset.mpr hsigner))
      simp only [List.map_append, List.toFinset_append, List.map_cons,
        List.map_nil, List.toFinset_cons, List.toFinset_nil,
        insert_emptyc_eq, SigEntry.signerOf]
      rw [hunion]

/-- C2 witness: the amended dedup behavior evaluated at concrete inputs — a
distinct-signer sequence keeps entries distinct, re-submitting the stored
pair of `A` leaves the store untouched, and a second signature `s2` by `A`
is appended. -/
theorem sign_dedups_by_exact_entry_witness :
    storeEntriesNodup (runSigns [signExtA1, signExtB] (some (freshPending 3)))
    ∧ (sign signExtA1 (some pendingReSign)).store = some pendingReSign
    ∧ (sign signExtA2 (some pendingReSign)).store
        = some { pendingReSign with
            signatures := pendingReSign.signatures ++ [SigEntry.str "A" "s2"] } :=
  ⟨sign_dedups_by_exact_entry.1 [signExtA1, signExtB] (some (freshPending 3))
      (fun p hp => by
        obtain rfl := Option.some.inj hp
        simp [freshPending]),
   sign_dedups_by_exact_entry.2.1 signExtA1 pendingReSign rfl (by decide) (by decide),
   (sign_dedups_by_exact_entry.2.2 signExtA2 pendingReSign rfl (by decide) (by decide)).1⟩

/-- C3: with two required signatures, signing with signer `A` and then with
a distinct signer `B` leaves a persisted proposal whose signature list
holds only the single stringified entry of `A` — the threshold-reaching
second signature is never saved — so the unique-signer count of the store
is `1` although two distinct signer addresses were submitted. This
contradicts the declared data model (`signatures: Signature[]` holding
objects with a `signer` field) and makes the documented sign-multiple-times
workflow unable to ever reach the threshold in the store. -/
theorem sign_unique_count_diverges_from_distinct_submitted :
    runSigns [signExtA1, signExtB] (some (freshPending 2))
        = some { freshPending 2 with signatures := [SigEntry.str "A" "s1"] }
    ∧ distinctSigners [SigEntry.str "A" "s1"] = 1
    ∧ signExtA1.signerAddress ≠ signExtB.signerAddress := by
  refine ⟨rfl, rfl, by decide⟩

/-- When every entry is a proper object entry, the unique-count computed by
the send command over the `signer` fields equals the count of distinct
recorded signer addresses. -/
theorem uniqueFieldCount_eq_distinct (l : List SigEntry)
    (h : ∀ e ∈ l, e.isObj = true) :
    uniqueSignerFieldCount l = distinctSigners l := by
  unfold uniqueSignerFieldCount distinctSigners
  have hm : l.map SigEntry.signerField = l.map (fun e => some (SigEntry.signerOf e)) := by
    apply List.map_congr_left
    intro e he
    have he2 := h e he
    cases e with
    | obj a g => rfl
    | str a g => simp [SigEntry.isObj] at he2
  have himg : ((l.map SigEntry.signerOf).map some).toFinset
      = (l.map SigEntry.signerOf).toFinset.image some := by
    ext x
    simp [List.mem_toFinset, Finset.mem_image]
  rw [hm, show l.map (fun e => some (SigEntry.signerOf e))
        = (l.map SigEntry.signerOf).map some by rw [List.map_map]; rfl,
     himg, Finset.card_image_of_injective _ (Option.some_injective _)]

/-- C4 counterexample: on a store the sign command itself produces (fresh
three-required proposal signed by distinct signers `A` and `B`, two
stringified entries), the unique-signer count of the proposal is `2`, yet
the failing send reports `got = 1` — the `Set` over the `signer` fields of
string entries collapses them all to one `undefined` — so the claim's
"reporting have = the unique count" is false on a reachable store (the
store is still left unchanged). -/
theorem sendTx_have_not_unique_count_cex :
    runSigns [signExtA1, signExtB] (some (freshPending 3))
        = some pendingTwoStrOfThree
    ∧ distinctSigners pendingTwoStrOfThree.signatures = 2
    ∧ (sendTx sendCmdExtOk ⟨none, none, none⟩ (some pendingTwoStrOfThree)).code
        = .insufficient 1 3
    ∧ (sendTx sendCmdExtOk ⟨none, none, none⟩ (some pendingTwoStrOfThree)).store
        = some pendingTwoStrOfThree := by
  refine ⟨rfl, rfl, rfl, rfl⟩

/-- C4 amended: for every stored proposal whose computed unique count — the
size of `new Set(signatures.map(s => s.signer))`, which on string entries
collapses them all to one `undefined` element — is strictly below the
required count, `sendTx` fails with the insufficient-signatures outcome
reporting exactly that computed count (`got`) against the required count
(`need`), performs neither a service call nor a submission, and leaves the
store byte-for-byte unchanged: loading before and after the failed send
yields the same record. Only for proposals in the declared record format
(object entries) does the computed count equal the unique-signer count. -/
theorem sendTx_insufficient_reports_computed_count
    (extc : SendCmdExt) (opts : SendTxOptions) (p : PendingTransaction)
    (hlt : uniqueSignerFieldCount p.signatures < p.requiredSignatures) :
    sendTx extc opts (some p)
        = ⟨.insufficient (uniqueSignerFieldCount p.signatures) p.requiredSignatures,
           some p, none, none⟩
    ∧ loadPendingTransaction (sendTx extc opts (some p)).store
        = loadPendingTransaction (some p)
    ∧ ((∀ e ∈ p.signatures, e.isObj = true) →
        uniqueSignerFieldCount p.signatures = distinctSigners p.signatures) := by
  have h1 : sendTx extc opts (some p)
      = ⟨.insufficient (uniqueSignerFieldCount p.signatures) p.requiredSignatures,
         some p, none, none⟩ := by
    simp [sendTx, hasPendingTransaction, hlt]
  exact ⟨h1, by rw [h1], fun hobj => uniqueFieldCount_eq_distinct p.signatures hobj⟩

/-- C4 witness: the amended theorem evaluated on a declared-format proposal
holding one object signature by `A` with two required, where the computed
count agrees with the unique-signer count. -/
theorem sendTx_insufficient_reports_computed_count_witness :
    sendTx sendCmdExtOk sendOptsWithCliSig (some pendingOneObjOfTwo)
      = ⟨.insufficient 1 2, some pendingOneObjOfTwo, none, none⟩
    ∧ uniqueSignerFieldCount pendingOneObjOfTwo.signatures
        = distinctSigners pendingOneObjOfTwo.signatures :=
  ⟨(sendTx_insufficient_reports_computed_count sendCmdExtOk sendOptsWithCliSig
      pendingOneObjOfTwo (by decide)).1,
   (sendTx_insufficient_reports_computed_count sendCmdExtOk sendOptsWithCliSig
      pendingOneObjOfTwo (by decide)).2.2 (by decide)⟩

/-- C5 counterexample: with a stored proposal already holding the
persisted signature of `A` (two required), a send invoked with the provided
signature of `B` submits only the encoding of the entry of `B`: nothing is
merged, the witness of `A` is absent from the submitted list, and the
submission nevertheless proceeds (no threshold check over the union is
performed in the service). -/
theorem send_does_not_merge_provided_cex :
    (sendTransaction sendExtOk [SigEntry.obj "B" "sB"] (some pendingOneObjOfTwo)).submitted
        = some ["B:sB"]
    ∧ pendingOneObjOfTwo.signatures = [SigEntry.obj "A" "sA"]
    ∧ "A:sA" ∉ ["B:sB"]
    ∧ exceptIsOk (sendTransaction sendExtOk [SigEntry.obj "B" "sB"]
          (some pendingOneObjOfTwo)).result = true := by
  refine ⟨rfl, rfl, by decide, rfl⟩

/-- C5 amended: `sendTransaction` submits exactly the provided signature
list, encoded in order — the persisted signatures of the stored proposal
are not consulted for the witness list at all (the submitted list is
independent of the stored record), so callers must pass the complete list
themselves. -/
theorem send_submits_exactly_provided (ext : SendExt) (sigs : List SigEntry)
    (p q : PendingTransaction) :
    (sendTransaction ext sigs (some p)).submitted
        = (sendTransaction ext sigs (some q)).submitted
    ∧ (∀ ws, ext.vaultOk = true → ext.txOk = true →
        encodeWitnesses ext.encode sigs = .ok ws →
        (sendTransaction ext sigs (some p)).submitted = some ws) := by
  constructor
  · cases hv : ext.vaultOk <;> cases ht : ext.txOk <;>
      cases he : encodeWitnesses ext.encode sigs <;>
      cases hs : ext.sendOk <;> cases hw : ext.waitOk <;>
      simp [sendTransaction, hv, ht, he, hs, hw, loadPendingTransaction]
  · intro ws hv ht he
    cases hs : ext.sendOk <;> cases hw : ext.waitOk <;>
      simp [sendTransaction, hv, ht, he, hs, hw, loadPendingTransaction]

/-- C5 witness: the amended statement evaluated at the provided signature
of `B` against the stored proposal of `A`. -/
theorem send_submits_exactly_provided_witness :
    (sendTransaction sendExtOk [SigEntry.obj "B" "sB"]
        (some pendingOneObjOfOne)).submitted = some ["B:sB"] :=
  (send_submits_exactly_provided sendExtOk [SigEntry.obj "B" "sB"]
      pendingOneObjOfOne pendingOneObjOfTwo).2 ["B:sB"] rfl rfl rfl

/-- C6 counterexample: on a fresh proposal requiring one signature, a
single sign invocation (with the inline send offer declined) reports the
threshold as reached but persists nothing: the store is unchanged, and an
immediately following send command fails with the insufficient-signatures
outcome reporting zero of one — so the persisted proposal is not
send-eligible, contrary to the claim. -/
theorem threshold_one_sign_not_persisted_cex :
    (sign signExtA1 (some (freshPending 1))).store = some (freshPending 1)
    ∧ (sign signExtA1 (some (freshPending 1))).report
        = some ⟨1, 1, true, false⟩
    ∧ (sendTx sendCmdExtOk ⟨none, none, none⟩
          ((sign signExtA1 (some (freshPending 1))).store)).code
        = .insufficient 0 1 := by
  refine ⟨rfl, rfl, rfl⟩

/-- C6 amended: with one required signature, a single sign invocation
always takes the threshold branch — it reports the threshold as reached and
offers an immediate submission of just the fresh signature — but never
persists the signature: when the offer is declined the store is unchanged,
and when it is accepted and every collaborator succeeds the transaction is
submitted and the store is emptied. -/
theorem threshold_one_sign_reports_but_does_not_persist
    (ext : SignExt) (p : PendingTransaction)
    (hreq : p.requiredSignatures = 1) (hkey : ext.keyOk = true) :
    (ext.sendNow = false →
      (sign ext (some p)).store = some p
      ∧ (sign ext (some p)).report
          = some ⟨p.signatures.length + 1, 1, true, false⟩)
    ∧ (ext.sendNow = true → ext.walletOk = true → ext.networkOk = true →
        ∀ ws, ext.send.vaultOk = true → ext.send.txOk = true →
          encodeWitnesses ext.send.encode
              [SigEntry.obj ext.signerAddress ext.signatureStr] = .ok ws →
          ext.send.sendOk = true → ext.send.waitOk = true →
          (sign ext (some p)).store = none
          ∧ (sign ext (some p)).sendResult
              = some (.ok ⟨ext.send.txId, statusOr ext.send.resultStatus⟩)) := by
  have hge : p.signatures.length + 1 ≥ p.requiredSignatures := by omega
  constructor
  · intro hsend
    constructor <;> simp [sign, hasPendingTransaction, hkey, hge, hsend, hreq]
  · intro hsend hw hn ws hv ht he hs hwk
    constructor <;>
      simp [sign, hasPendingTransaction, hkey, hge, hsend, hw, hn,
        sendTransaction, loadPendingTransaction, he, hv, ht, hs, hwk,
        deletePendingTransaction]

/-- C6 witness: the amended statement evaluated on the fresh threshold-one
proposal, once with the send offer declined and once with it accepted and
succeeding. -/
theorem threshold_one_sign_reports_but_does_not_persist_witness :
    (sign signExtA1 (some (freshPending 1))).store = some (freshPending 1)
    ∧ (sign signExtSendNow (some (freshPending 1))).store = none :=
  ⟨((threshold_one_sign_reports_but_does_not_persist signExtA1
      (freshPending 1) rfl rfl).1 rfl).1,
   ((threshold_one_sign_reports_but_does_not_persist signExtSendNow
      (freshPending 1) rfl rfl).2 rfl rfl rfl ["A:s1"] rfl rfl rfl rfl rfl).1⟩

/-- The create service leaves the store untouched on any collaborator
failure, and otherwise persists a record with an empty signature list
stamped with the current time. -/
theorem createTransaction_store_shape (ext : CreateExt) (cfg : WalletConfig)
    (nw : String) (input : TransactionInput) (st : Store) :
    (createTransaction ext cfg nw input st).2 = st
    ∨ ∃ q, (createTransaction ext cfg nw input st).2 = some q
        ∧ q.signatures = [] ∧ q.createdAt = ext.now := by
  unfold createTransaction
  split
  · left; rfl
  split
  · left; rfl
  right
  exact ⟨_, rfl, rfl, rfl⟩

/-- Starting from an empty slot, the rest of the create command either
leaves the slot empty (on any validation or collaborator failure) or
persists a freshly built record with no signatures, stamped with the
current time. -/
theorem createTxRest_from_empty (ext : CreateCmdExt)
    (files : String → Option WalletConfig) (opts : CreateTxOptions) :
    (createTxRest ext files opts none).store = none
    ∨ ∃ q, (createTxRest ext files opts none).store = some q
        ∧ q.signatures = [] ∧ q.createdAt = ext.svc.now := by
  unfold createTxRest
  split
  · left; rfl
  split
  · left; rfl
  split
  · left; rfl
  split
  · left; rfl
  split
  · left; rfl
  dsimp only
  split <;> exact createTransaction_store_shape ext.svc _ _ _ none

/-- C7: invoking create while a pending proposal exists and declining the
replacement prompt is refused (the conflict path) with the store untouched;
confirming the replacement deletes the old proposal first, so whatever
happens afterwards the store holds either nothing (when a later step fails)
or a freshly persisted proposal with an empty signature list — no signature
of the old proposal is carried over. -/
theorem createTx_conflict_and_replace_semantics (ext : CreateCmdExt)
    (files : String → Option WalletConfig) (opts : CreateTxOptions)
    (p : PendingTransaction) :
    (ext.replace = false →
      createTx ext files opts (some p) = ⟨.keptExisting, some p⟩)
    ∧ (ext.replace = true →
      (createTx ext files opts (some p)).store = none
      ∨ ∃ q, (createTx ext files opts (some p)).store = some q
          ∧ q.signatures = [] ∧ q.createdAt = ext.svc.now) := by
  constructor
  · intro h
    simp [createTx, hasPendingTransaction, h]
  · intro h
    have heq : createTx ext files opts (some p) = createTxRest ext files opts none := by
      simp [createTx, hasPendingTransaction, h, deletePendingTransaction]
    rw [heq]
    exact createTxRest_from_empty ext files opts

/-- C7 witness: the theorem evaluated on a populated store, once declining
and once confirming the replacement. -/
theorem createTx_conflict_and_replace_semantics_witness :
    createTx createCmdKeep walletFiles createOptsOk (some (freshPending 2))
        = ⟨.keptExisting, some (freshPending 2)⟩
    ∧ ((createTx createCmdReplace walletFiles createOptsOk (some (freshPending 2))).store = none
        ∨ ∃ q, (createTx createCmdReplace walletFiles createOptsOk
              (some (freshPending 2))).store = some q
            ∧ q.signatures = [] ∧ q.createdAt = createCmdReplace.svc.now) :=
  ⟨(createTx_conflict_and_replace_semantics createCmdKeep walletFiles createOptsOk
      (freshPending 2)).1 rfl,
   (createTx_conflict_and_replace_semantics createCmdReplace walletFiles createOptsOk
      (freshPending 2)).2 rfl⟩

/-- C9: the send command never reads the `-s`/`--signer` and
`-S`/`--signature` options declared by the CLI entry point — its whole
outcome is unchanged when they are cleared — and whenever the service call
is reached, the signature list it passes is exactly the persisted
signature list of the pending proposal, so a signature supplied only on the
command line is never included in the submission. -/
theorem sendTx_ignores_cli_signature_options (extc : SendCmdExt)
    (opts : SendTxOptions) (st : Store) :
    sendTx extc opts st
        = sendTx extc { network := opts.network, signer := none, signature := none } st
    ∧ (∀ p l, st = some p → (sendTx extc opts st).passed = some l →
        l = p.signatures) := by
  constructor
  · rfl
  · intro p l hst hp
    subst hst
    revert hp
    simp only [sendTx, hasPendingTransaction, Option.isSome_some]
    repeat' split
    all_goals intro hp
    all_goals simp_all

/-- C9 witness: the theorem evaluated with a signature supplied on the
command line against a send-eligible stored proposal. -/
theorem sendTx_ignores_cli_signature_options_witness :
    sendTx sendCmdExtOk sendOptsWithCliSig (some pendingOneObjOfOne)
        = sendTx sendCmdExtOk ⟨some "n", none, none⟩ (some pendingOneObjOfOne)
    ∧ [SigEntry.obj "A" "sA"] = pendingOneObjOfOne.signatures :=
  ⟨(sendTx_ignores_cli_signature_options sendCmdExtOk sendOptsWithCliSig
      (some pendingOneObjOfOne)).1,
   (sendTx_ignores_cli_signature_options sendCmdExtOk sendOptsWithCliSig
      (some pendingOneObjOfOne)).2 pendingOneObjOfOne [SigEntry.obj "A" "sA"] rfl rfl⟩

/-- C10 counterexample: a wallet configuration whose `version` field is
present but empty, with one non-zero signer, a threshold of one within the
valid-signer bound and a non-empty signer list, is rejected by
`validateWalletConfig` although the claim says such a configuration is
accepted whenever a version field is present. -/
theorem wallet_config_empty_version_rejected_cex :
    exceptIsOk (validateWalletConfig walletEmptyVersion) = false
    ∧ walletEmptyVersion.version.isSome = true
    ∧ walletEmptyVersion.config = some ⟨some 1, some ["A"], none⟩
    ∧ (1 : Int) ≤ 1
    ∧ (["A"] : List String) ≠ []
    ∧ (1 : Int) ≤ ((["A"].filter (fun s => s ≠ zeroAddress)).length : Int) := by
  refine ⟨rfl, rfl, rfl, by decide, by decide, by decide⟩

/-- C10 amended: wallet-configuration acceptance characterized exactly —
a configuration passes validation if and only if the `config` object and
`SIGNERS` are present, the signer list is non-empty (zero addresses count
here), `SIGNATURES_COUNT` is present with value between `1` and the number
of signers left after excluding the all-zero address, and `version` is
present and non-empty; and loading goes through exactly when the file
exists and its content (with the name set) passes that validation. -/
theorem validateWalletConfig_acceptance_characterization :
    (∀ c : WalletConfig,
        exceptIsOk (validateWalletConfig c) = specWalletConfigAccepted c)
    ∧ ∀ (files : String → Option WalletConfig) (nm : String),
        exceptIsOk (loadWalletConfig files nm)
          = (match files nm with
             | none => false
             | some c0 => specWalletConfigAccepted { c0 with name := nm }) := by
  have hval : ∀ c : WalletConfig,
      exceptIsOk (validateWalletConfig c) = specWalletConfigAccepted c := by
    intro c
    rcases c with ⟨nm, cfgOpt, ver⟩
    cases cfgOpt with
    | none => rfl
    | some cfg =>
      rcases cfg with ⟨cnt, sgn, hpred⟩
      cases sgn with
      | none => cases cnt <;> cases ver <;> rfl
      | some signers =>
        cases cnt with
        | none =>
          cases ver <;> by_cases hlen : signers.length = 0 <;>
            simp [validateWalletConfig, specWalletConfigAccepted, exceptIsOk, hlen]
        | some n =>
          cases ver with
          | none =>
            by_cases hlen : signers.length = 0 <;>
              by_cases hn : n = 0 ∨ n < 1 <;>
              simp [validateWalletConfig, specWalletConfigAccepted, exceptIsOk, hlen, hn]
          | some v =>
            by_cases hlen : signers.length = 0
            · have hsig : signers = [] := List.length_eq_zero.mp hlen
              subst hsig
              simp [validateWalletConfig, specWalletConfigAccepted, exceptIsOk]
            · by_cases hn : n = 0 ∨ n < 1
              · have h1 : ¬ (1 ≤ n) := by omega
                simp [validateWalletConfig, specWalletConfigAccepted, exceptIsOk,
                  hlen, hn, h1]
              · have h1 : 1 ≤ n := by omega
                by_cases hv : v = ""
                · simp [validateWalletConfig, specWalletConfigAccepted, exceptIsOk,
                    hlen, hn, hv]
                · have hne : signers ≠ [] := fun hnil => hlen (by simp [hnil])
                  have hee : (!signers.isEmpty) = true := by
                    simp [List.isEmpty_iff, hne]
                  have e2 : decide (1 ≤ n) = true := decide_eq_true h1
                  have e4 : (!decide (v = "")) = true := by simp [hv]
                  unfold validateWalletConfig specWalletConfigAccepted
                  dsimp only
                  rw [if_neg hlen, if_neg hn, if_neg hv, hee, e2, e4]
                  simp only [Bool.true_and, Bool.and_true, ne_eq, decide_not]
                  rcases lt_or_le
                      ((signers.filter (fun s => !decide (s = zeroAddress))).length : Int) n
                    with hb | hb
                  · rw [if_pos hb]
                    simp [exceptIsOk, not_le.mpr hb]
                  · rw [if_neg (not_lt.mpr hb)]
                    simp [exceptIsOk, hb]
  refine ⟨hval, ?_⟩
  intro files nm
  unfold loadWalletConfig
  cases hf : files nm with
  | none => rfl
  | some c0 =>
    simp only []
    rw [show exceptIsOk (match validateWalletConfig { c0 with name := nm } with
          | .error e => (.error e : Except String WalletConfig)
          | .ok _ => .ok { c0 with name := nm })
        = exceptIsOk (validateWalletConfig { c0 with name := nm }) by
      cases validateWalletConfig { c0 with name := nm } <;> rfl]
    exact hval { c0 with name := nm }

/-- C8: deleting the pending transaction on an empty store is a no-op and
raises no error (the operation is total in the model because the unlink is
guarded by the existence check); on any store, the slot no longer exists
immediately afterwards. -/
theorem delete_pending_noop_and_clears :
    deletePendingTransaction none = none
      ∧ ∀ st : Store, hasPendingTransaction (deletePendingTransaction st) = false := by
  refine ⟨rfl, ?_⟩
  intro st
  cases st <;> rfl

end BakoVault
